import Mathlib

/-!
Verification of the pyxgen sprite-generation pipeline (src/pyxgen.py).

The grid is a list of rows of cell codes (0 = background, 1 = alive,
2 = outline).  Python's in-place loops are embedded as folds that thread
the mutated grid explicitly; `deepcopy` followed by index assignment
becomes `writeGrid` starting from the copied grid.  Out-of-range list
reads never occur on the in-bounds coordinates the program uses, so the
embedding reads cells with a default value.
-/

abbrev Grid := List (List Nat)

/-- Length of row `y` (0 when the row does not exist). -/
def rowLen {α : Type} (g : List (List α)) (y : Nat) : Nat := (g.getD y []).length

/-- Cell at column `x`, row `y`, with default `d` out of bounds. -/
def cellD {α : Type} (g : List (List α)) (x y : Nat) (d : α) : α := (g.getD y []).getD x d

/-- `g[y][x] = v`, the in-place single-cell assignment. -/
def setCell {α : Type} (g : List (List α)) (x y : Nat) (v : α) : List (List α) :=
  g.set y ((g.getD y []).set x v)

/-- `count_neighbors(state, x, y)` from src/pyxgen.py: live orthogonal
neighbors, guarded by the same four boundary tests as the Python code. -/
def count_neighbors (state : Grid) (x y : Nat) : Nat :=
  (if 0 < x ∧ cellD state (x - 1) y 0 = 1 then 1 else 0) +
  (if 0 < y ∧ cellD state x (y - 1) 0 = 1 then 1 else 0) +
  (if x < rowLen state y - 1 ∧ cellD state (x + 1) y 0 = 1 then 1 else 0) +
  (if y < state.length - 1 ∧ cellD state x (y + 1) 0 = 1 then 1 else 0)

/-- The per-cell automaton rule from the body of `evolve`. -/
def evolveCell (state : Grid) (x y : Nat) : Nat :=
  if (cellD state x y 0 = 0 ∧ count_neighbors state x y ≤ 1) ∨
      (cellD state x y 0 = 1 ∧ (count_neighbors state x y = 2 ∨ count_neighbors state x y = 3))
  then 1 else 0

/-- Row-major double loop writing `v x y` into cell `(x, y)` of `init`
for `y < hgt`, `x < wid y`.  Embeds `for y ...: for x ...: g[y][x] = v`. -/
def writeGrid {α : Type} (init : List (List α)) (hgt : Nat) (wid : Nat → Nat)
    (v : Nat → Nat → α) : List (List α) :=
  (List.range hgt).foldl
    (fun im y => (List.range (wid y)).foldl (fun im x => setCell im x y (v x y)) im) init

/-- `evolve(state)` from src/pyxgen.py: `new_state = deepcopy(state)`,
then every cell of `new_state` is assigned the rule value computed on
the original `state`. -/
def evolve (state : Grid) : Grid :=
  writeGrid state state.length (fun y => rowLen state y) (fun x y => evolveCell state x y)

/-- `for line in bitmap: line.insert(0, 0)` — a background column at the
left edge of every row. -/
def growCols (bitmap : Grid) : Grid := bitmap.map (fun line => 0 :: line)

/-- `bitmap.insert(0, [0] * len(bitmap[0]))` — a background row on top,
as wide as the (already widened) first row. -/
def growTop (b : Grid) : Grid := List.replicate (rowLen b 0) 0 :: b

/-- `bitmap.append([0] * len(bitmap[0]))` — a background row at the
bottom, as wide as the current first row. -/
def growBottom (b : Grid) : Grid := b ++ [List.replicate (rowLen b 0) 0]

/-- The growth step of `generate_bitmap`: left column, then top row,
then bottom row; the right edge gets nothing. -/
def grow (bitmap : Grid) : Grid := growBottom (growTop (growCols bitmap))

/-- The in-place outline loop of `generate_bitmap`: scans in row-major
order, reading cell values and neighbor counts from the grid being
mutated, and writes code 2 into background cells with a live neighbor. -/
def outlinePass (bitmap : Grid) : Grid :=
  (List.range bitmap.length).foldl
    (fun bm y =>
      (List.range (rowLen bm y)).foldl
        (fun bm x =>
          if cellD bm x y 0 = 0 ∧ 0 < count_neighbors bm x y then setCell bm x y 2 else bm)
        bm)
    bitmap

/-- `generate_bitmap` with the random seed grid made explicit: evolve
twice, grow, mark outline. -/
def generate_bitmap (seed : Grid) : Grid := outlinePass (grow (evolve (evolve seed)))

/-- The mirroring loop of `create_sprite`: `line.extend(line[::-1])`. -/
def mirrorStep (g : Grid) : Grid := g.map (fun line => line ++ line.reverse)

abbrev Color3 := Int × Int × Int
abbrev Pixel := Int × Int × Int × Int

def OUTLINE_DARKEN_RATE : Int := 90

/-- Derived outline color: each channel of the main color darkened by
`OUTLINE_DARKEN_RATE`, clamped at 0. -/
def deriveOutline (c : Color3) : Color3 :=
  (max 0 (c.1 - OUTLINE_DARKEN_RATE), max 0 (c.2.1 - OUTLINE_DARKEN_RATE),
    max 0 (c.2.2 - OUTLINE_DARKEN_RATE))

/-- An RGB triple written into an RGBA image gets alpha 255. -/
def rgba (c : Color3) : Pixel := (c.1, c.2.1, c.2.2, 255)

/-- The `color_map` dictionary of `create_sprite` as a function on codes. -/
def color_map (color outline bg : Color3) (transparency : Bool) : Nat → Pixel :=
  fun code =>
    if code = 0 then (if transparency then (255, 255, 255, 0) else rgba bg)
    else if code = 1 then rgba color
    else rgba outline

/-- `Image.new('RGBA', (10, 10))`: 10×10 pixels, all fully transparent black. -/
def blankImage : List (List Pixel) := List.replicate 10 (List.replicate 10 ((0, 0, 0, 0) : Pixel))

/-- The `putpixel` double loop of `create_sprite`: writes the mapped
color of every bitmap cell into the image. -/
def putpixels (img : List (List Pixel)) (m : Grid) (cmap : Nat → Pixel) : List (List Pixel) :=
  writeGrid img m.length (fun y => rowLen m y) (fun x y => cmap (cellD m x y 0))

/-- `create_sprite(bitmap, color, outline_color, bg_color, transparency)`:
mirror the bitmap, resolve the outline color (deriving it from the main
color when none is supplied), and rasterize into the 10×10 RGBA image. -/
def create_sprite (bitmap : Grid) (color : Color3) (outline_color : Option Color3)
    (bg_color : Color3) (transparency : Bool) : List (List Pixel) :=
  let m := mirrorStep bitmap
  let oc := outline_color.getD (deriveOutline color)
  putpixels blankImage m (color_map color oc bg_color transparency)

/-- Pointwise (pure) description of one evolution step. -/
def evolvePure (state : Grid) : Grid :=
  (List.range state.length).map (fun y =>
    (List.range (rowLen state y)).map (fun x => evolveCell state x y))

/-- Pointwise outline value computed from an immutable snapshot `g`. -/
def outlineCell (g : Grid) (x y : Nat) : Nat :=
  if cellD g x y 0 = 0 ∧ 0 < count_neighbors g x y then 2 else cellD g x y 0

/-- Two-phase outline marking: compute every recoding from the snapshot
of the grown grid, then apply them all. -/
def outlineTwoPhase (g : Grid) : Grid :=
  (List.range g.length).map (fun y =>
    (List.range (rowLen g y)).map (fun x => outlineCell g x y))

/-- The four orthogonal neighbor positions of `(x, y)`, as integer
coordinates so that off-grid candidates are representable. -/
def candidates (x y : Nat) : List (Int × Int) :=
  [((x : Int) - 1, (y : Int)), ((x : Int), (y : Int) - 1),
    ((x : Int) + 1, (y : Int)), ((x : Int), (y : Int) + 1)]

/-- Membership of an integer coordinate in the grid. -/
def inBoundsB (g : Grid) (p : Int × Int) : Bool :=
  decide (0 ≤ p.1) && decide (0 ≤ p.2) && decide (p.2 < (g.length : Int)) &&
    decide (p.1 < (rowLen g p.2.toNat : Int))

/-- Number of in-bounds orthogonal neighbors of `(x, y)` whose code is 1. -/
def adjacentAlive (g : Grid) (x y : Nat) : Nat :=
  ((candidates x y).filter (fun p => inBoundsB g p && decide (cellD g p.1.toNat p.2.toNat 0 = 1))).length

/-- Number of in-bounds orthogonal neighbor positions of `(x, y)`. -/
def candidateCount (g : Grid) (x y : Nat) : Nat :=
  ((candidates x y).filter (fun p => inBoundsB g p)).length

/-- A small binary grid used to evaluate the theorems on concrete input. -/
def sampleA : Grid := [[0, 1], [1, 0]]

/-- A small all-background grid used to evaluate the theorems on concrete input. -/
def sampleZ : Grid := [[0, 0], [0, 0]]

/-- The all-background 8×4 seed, a concrete run of the pipeline. -/
def zeroSeed : Grid := List.replicate 8 (List.replicate 4 0)

/-! ### Basic list-of-rows lemmas -/

theorem getD_set {α : Type} (l : List α) (i j : Nat) (a d : α) :
    (l.set i a).getD j d = if i = j ∧ j < l.length then a else l.getD j d := by
  by_cases hj : j < l.length
  · rw [List.getD_eq_getElem _ d (by simpa using hj), List.getElem_set]
    by_cases hij : i = j
    · simp [hij, hj]
    · rw [if_neg hij, if_neg (fun h => hij h.1), List.getD_eq_getElem _ d hj]
  · have hj' : l.length ≤ j := Nat.le_of_not_lt hj
    rw [List.getD_eq_default _ d (by simpa using hj'), List.getD_eq_default _ d hj',
      if_neg (fun h => hj h.2)]

theorem length_setCell {α : Type} (g : List (List α)) (x y : Nat) (v : α) :
    (setCell g x y v).length = g.length := by
  unfold setCell; exact List.length_set g y _

theorem rowLen_setCell {α : Type} (g : List (List α)) (x y j : Nat) (v : α) :
    rowLen (setCell g x y v) j = rowLen g j := by
  unfold rowLen setCell
  rw [getD_set]
  split
  · next h => rcases h with ⟨rfl, hj⟩; simp [List.length_set]
  · rfl

theorem cellD_setCell {α : Type} (g : List (List α)) (x y i j : Nat) (v d : α) :
    cellD (setCell g x y v) i j d =
      if x = i ∧ y = j ∧ y < g.length ∧ x < rowLen g y then v else cellD g i j d := by
  unfold cellD setCell
  rw [getD_set]
  by_cases hyj : y = j ∧ j < g.length
  · rcases hyj with ⟨rfl, hj⟩
    rw [if_pos ⟨rfl, hj⟩, getD_set]
    have hcond : (x = i ∧ i < (g.getD y []).length) ↔
        (x = i ∧ y = y ∧ y < g.length ∧ x < rowLen g y) := by
      unfold rowLen
      constructor
      · rintro ⟨rfl, h⟩; exact ⟨rfl, rfl, hj, h⟩
      · rintro ⟨rfl, -, -, h⟩; exact ⟨rfl, h⟩
    simp only [hcond]
  · have hne : ¬(x = i ∧ y = j ∧ y < g.length ∧ x < rowLen g y) := by
      rintro ⟨-, rfl, hj2, -⟩; exact hyj ⟨rfl, hj2⟩
    rw [if_neg hyj, if_neg hne]

/-! ### Characterization of the row-major write loop -/

/-- One row of the write loop: `for x in range(n): g[y][x] = v x y`. -/
def rowFold {α : Type} (y : Nat) (v : Nat → Nat → α) (n : Nat)
    (im : List (List α)) : List (List α) :=
  (List.range n).foldl (fun im x => setCell im x y (v x y)) im

theorem rowFold_succ {α : Type} (y : Nat) (v : Nat → Nat → α) (n : Nat)
    (im : List (List α)) :
    rowFold y v (n + 1) im = setCell (rowFold y v n im) n y (v n y) := by
  unfold rowFold
  rw [List.range_succ, List.foldl_append]
  rfl

theorem rowFold_length {α : Type} (y : Nat) (v : Nat → Nat → α) (n : Nat)
    (im : List (List α)) : (rowFold y v n im).length = im.length := by
  induction n with
  | zero => rfl
  | succ n ih => rw [rowFold_succ, length_setCell, ih]

theorem rowFold_rowLen {α : Type} (y : Nat) (v : Nat → Nat → α) (n : Nat)
    (im : List (List α)) (j : Nat) : rowLen (rowFold y v n im) j = rowLen im j := by
  induction n with
  | zero => rfl
  | succ n ih => rw [rowFold_succ, rowLen_setCell, ih]

theorem rowFold_cellD {α : Type} (y : Nat) (v : Nat → Nat → α) (n : Nat)
    (im : List (List α)) (i j : Nat) (d : α) :
    cellD (rowFold y v n im) i j d =
      if y = j ∧ i < n ∧ y < im.length ∧ i < rowLen im y then v i y else cellD im i j d := by
  induction n with
  | zero =>
    have : ¬(y = j ∧ i < 0 ∧ y < im.length ∧ i < rowLen im y) := by
      rintro ⟨-, h, -⟩; omega
    rw [if_neg this]; rfl
  | succ n ih =>
    rw [rowFold_succ, cellD_setCell, rowFold_length, rowFold_rowLen, ih]
    by_cases h1 : n = i
    · subst h1
      by_cases h2 : y = j
      · subst h2
        by_cases h3 : y < im.length <;> by_cases h4 : n < rowLen im y <;>
          simp [h3, h4, Nat.lt_irrefl, Nat.lt_succ_self]
      · simp [h2]
    · rw [if_neg (fun h => h1 h.1)]
      by_cases h2 : y = j
      · subst h2
        by_cases h5 : i < n
        · have h6 : i < n + 1 := by omega
          simp [h5, h6]
        · have h6 : ¬(i < n + 1) := by omega
          simp [h5, h6]
      · simp [h2]

theorem writeGrid_succ {α : Type} (init : List (List α)) (h : Nat) (wid : Nat → Nat)
    (v : Nat → Nat → α) :
    writeGrid init (h + 1) wid v = rowFold h v (wid h) (writeGrid init h wid v) := by
  unfold writeGrid
  rw [List.range_succ, List.foldl_append]
  rfl

theorem writeGrid_length {α : Type} (init : List (List α)) (hgt : Nat) (wid : Nat → Nat)
    (v : Nat → Nat → α) : (writeGrid init hgt wid v).length = init.length := by
  induction hgt with
  | zero => rfl
  | succ h ih => rw [writeGrid_succ, rowFold_length, ih]

theorem writeGrid_rowLen {α : Type} (init : List (List α)) (hgt : Nat) (wid : Nat → Nat)
    (v : Nat → Nat → α) (j : Nat) : rowLen (writeGrid init hgt wid v) j = rowLen init j := by
  induction hgt with
  | zero => rfl
  | succ h ih => rw [writeGrid_succ, rowFold_rowLen, ih]

theorem writeGrid_cellD {α : Type} (init : List (List α)) (hgt : Nat) (wid : Nat → Nat)
    (v : Nat → Nat → α) (i j : Nat) (d : α) :
    cellD (writeGrid init hgt wid v) i j d =
      if j < hgt ∧ i < wid j ∧ j < init.length ∧ i < rowLen init j then v i j
      else cellD init i j d := by
  induction hgt with
  | zero =>
    have : ¬(j < 0 ∧ i < wid j ∧ j < init.length ∧ i < rowLen init j) := by
      rintro ⟨h, -⟩; omega
    rw [if_neg this]; rfl
  | succ h ih =>
    rw [writeGrid_succ, rowFold_cellD, writeGrid_length, writeGrid_rowLen, ih]
    by_cases h1 : h = j
    · subst h1
      by_cases h2 : i < wid h <;> by_cases h3 : h < init.length <;>
        by_cases h4 : i < rowLen init h <;>
        simp [h2, h3, h4, Nat.lt_irrefl, Nat.lt_succ_self]
    · rw [if_neg (fun hh => h1 hh.1)]
      have hiff : (j < h) ↔ (j < h + 1) := by omega
      simp only [hiff]

/-! ### Grid extensionality and tabulated grids -/

theorem grid_ext {α : Type} (d : α) {g g' : List (List α)} (h1 : g.length = g'.length)
    (h2 : ∀ j, j < g.length → rowLen g j = rowLen g' j)
    (h3 : ∀ i j, j < g.length → i < rowLen g j → cellD g i j d = cellD g' i j d) :
    g = g' := by
  apply List.ext_getElem h1
  intro j hj hj'
  have hrow : g[j].length = g'[j].length := by
    have hr := h2 j hj
    unfold rowLen at hr
    rwa [List.getD_eq_getElem _ _ hj, List.getD_eq_getElem _ _ hj'] at hr
  apply List.ext_getElem hrow
  intro i hi hi'
  have hc := h3 i j hj (by unfold rowLen; rwa [List.getD_eq_getElem _ _ hj])
  unfold cellD at hc
  rw [List.getD_eq_getElem _ _ hj, List.getD_eq_getElem _ _ hj'] at hc
  rwa [List.getD_eq_getElem _ _ hi, List.getD_eq_getElem _ _ hi'] at hc

theorem tab_length {α : Type} (H : Nat) (W : Nat → Nat) (f : Nat → Nat → α) :
    ((List.range H).map (fun y => (List.range (W y)).map (fun x => f x y))).length = H := by
  rw [List.length_map, List.length_range]

theorem tab_rowLen {α : Type} (H : Nat) (W : Nat → Nat) (f : Nat → Nat → α) (j : Nat)
    (hj : j < H) :
    rowLen ((List.range H).map (fun y => (List.range (W y)).map (fun x => f x y))) j = W j := by
  unfold rowLen
  rw [List.getD_eq_getElem _ _ (by rw [tab_length]; exact hj), List.getElem_map,
    List.length_map, List.getElem_range, List.length_range]

theorem tab_cellD {α : Type} (H : Nat) (W : Nat → Nat) (f : Nat → Nat → α) (i j : Nat)
    (hj : j < H) (hi : i < W j) (d : α) :
    cellD ((List.range H).map (fun y => (List.range (W y)).map (fun x => f x y))) i j d =
      f i j := by
  unfold cellD
  have hj' : j < ((List.range H).map (fun y => (List.range (W y)).map (fun x => f x y))).length := by
    rw [tab_length]; exact hj
  rw [List.getD_eq_getElem _ _ hj']
  simp only [List.getElem_map, List.getElem_range]
  rw [List.getD_eq_getElem _ _ (by simpa using hi)]
  simp only [List.getElem_map, List.getElem_range]

/-! ### The evolution step as a pure pointwise function -/

theorem evolve_length (g : Grid) : (evolve g).length = g.length :=
  writeGrid_length g g.length (fun y => rowLen g y) (fun x y => evolveCell g x y)

theorem evolve_rowLen (g : Grid) (j : Nat) : rowLen (evolve g) j = rowLen g j :=
  writeGrid_rowLen g g.length (fun y => rowLen g y) (fun x y => evolveCell g x y) j

theorem evolve_cellD (g : Grid) (i j : Nat) (hj : j < g.length) (hi : i < rowLen g j) :
    cellD (evolve g) i j 0 = evolveCell g i j := by
  unfold evolve
  rw [writeGrid_cellD, if_pos ⟨hj, hi, hj, hi⟩]

theorem evolve_eq_pure (g : Grid) : evolve g = evolvePure g := by
  apply grid_ext 0
  · rw [evolve_length]
    exact (tab_length g.length (fun y => rowLen g y) (fun x y => evolveCell g x y)).symm
  · intro j hj
    rw [evolve_length] at hj
    rw [evolve_rowLen]
    exact (tab_rowLen g.length (fun y => rowLen g y) (fun x y => evolveCell g x y) j hj).symm
  · intro i j hj hi
    rw [evolve_length] at hj
    rw [evolve_rowLen] at hi
    rw [evolve_cellD g i j hj hi]
    exact (tab_cellD g.length (fun y => rowLen g y) (fun x y => evolveCell g x y) i j hj hi 0).symm

/-! ### Neighbor counts depend only on the positions of live cells -/

theorem count_congr (bm g : Grid) (hlen : bm.length = g.length)
    (hrow : ∀ j, rowLen bm j = rowLen g j)
    (hal : ∀ i j, cellD bm i j 0 = 1 ↔ cellD g i j 0 = 1) (x y : Nat) :
    count_neighbors bm x y = count_neighbors g x y := by
  unfold count_neighbors
  rw [hlen, hrow]
  simp only [hal]

/-! ### Invariant of the in-place outline scan -/

/-- After the scan has processed every cell before `(x, y)` in row-major
order, processed cells hold their two-phase value and unprocessed cells
their original value. -/
def OutInv (g bm : Grid) (y x : Nat) : Prop :=
  bm.length = g.length ∧ (∀ j, rowLen bm j = rowLen g j) ∧
    ∀ i j, cellD bm i j 0 =
      if (j < y ∨ (j = y ∧ i < x)) ∧ j < g.length ∧ i < rowLen g j then outlineCell g i j
      else cellD g i j 0

theorem outInv_alive {g bm : Grid} {y x : Nat} (h : OutInv g bm y x) (i j : Nat) :
    cellD bm i j 0 = 1 ↔ cellD g i j 0 = 1 := by
  rw [h.2.2 i j]
  by_cases hc : (j < y ∨ (j = y ∧ i < x)) ∧ j < g.length ∧ i < rowLen g j
  · rw [if_pos hc]
    unfold outlineCell
    by_cases hc2 : cellD g i j 0 = 0 ∧ 0 < count_neighbors g i j
    · rw [if_pos hc2]
      obtain ⟨e0, -⟩ := hc2
      constructor <;> intro h' <;> omega
    · rw [if_neg hc2]
  · rw [if_neg hc]

theorem outCond_iff (g : Grid) (x y i j : Nat) (hne : ¬(x = i ∧ y = j)) :
    ((j < y ∨ (j = y ∧ i < x)) ∧ j < g.length ∧ i < rowLen g j) ↔
      ((j < y ∨ (j = y ∧ i < x + 1)) ∧ j < g.length ∧ i < rowLen g j) := by
  constructor
  · rintro ⟨hc | ⟨rfl, hc⟩, hb⟩
    · exact ⟨Or.inl hc, hb⟩
    · exact ⟨Or.inr ⟨rfl, by omega⟩, hb⟩
  · rintro ⟨hc | ⟨rfl, hc⟩, hb⟩
    · exact ⟨Or.inl hc, hb⟩
    · have hxi : ¬x = i := fun he => hne ⟨he, rfl⟩
      exact ⟨Or.inr ⟨rfl, by omega⟩, hb⟩

theorem outInv_start (g : Grid) : OutInv g g 0 0 := by
  refine ⟨rfl, fun j => rfl, fun i j => ?_⟩
  have hno : ¬((j < 0 ∨ (j = 0 ∧ i < 0)) ∧ j < g.length ∧ i < rowLen g j) := by
    rintro ⟨h1 | ⟨-, h2⟩, -, -⟩ <;> omega
  rw [if_neg hno]

theorem outInv_step {g bm : Grid} {y x : Nat} (h : OutInv g bm y x) (hy : y < g.length)
    (hx : x < rowLen g y) :
    OutInv g (if cellD bm x y 0 = 0 ∧ 0 < count_neighbors bm x y then setCell bm x y 2 else bm)
      y (x + 1) := by
  obtain ⟨hlen, hrow, hcell⟩ := h
  have hbmxy : cellD bm x y 0 = cellD g x y 0 := by
    rw [hcell x y]
    have hno : ¬((y < y ∨ (y = y ∧ x < x)) ∧ y < g.length ∧ x < rowLen g y) := by
      rintro ⟨h1 | ⟨-, h2⟩, -, -⟩ <;> omega
    rw [if_neg hno]
  have hcnt : count_neighbors bm x y = count_neighbors g x y :=
    count_congr bm g hlen hrow (outInv_alive ⟨hlen, hrow, hcell⟩) x y
  rw [hbmxy, hcnt]
  by_cases hg : cellD g x y 0 = 0 ∧ 0 < count_neighbors g x y
  · rw [if_pos hg]
    refine ⟨by rw [length_setCell, hlen],
      fun j => by rw [rowLen_setCell]; exact hrow j, fun i j => ?_⟩
    rw [cellD_setCell, hcell i j]
    by_cases hij : x = i ∧ y = j
    · obtain ⟨rfl, rfl⟩ := hij
      rw [if_pos ⟨rfl, rfl, by rw [hlen]; exact hy, by rw [hrow]; exact hx⟩,
        if_pos ⟨Or.inr ⟨rfl, by omega⟩, hy, hx⟩]
      unfold outlineCell
      rw [if_pos hg]
    · have hne : ¬(x = i ∧ y = j ∧ y < bm.length ∧ x < rowLen bm y) :=
        fun hh => hij ⟨hh.1, hh.2.1⟩
      rw [if_neg hne, if_congr (outCond_iff g x y i j hij) rfl rfl]
  · rw [if_neg hg]
    refine ⟨hlen, hrow, fun i j => ?_⟩
    rw [hcell i j]
    by_cases hij : x = i ∧ y = j
    · obtain ⟨rfl, rfl⟩ := hij
      have hold : ¬((y < y ∨ (y = y ∧ x < x)) ∧ y < g.length ∧ x < rowLen g y) := by
        rintro ⟨h1 | ⟨-, h2⟩, -, -⟩ <;> omega
      rw [if_neg hold, if_pos ⟨Or.inr ⟨rfl, by omega⟩, hy, hx⟩]
      unfold outlineCell
      rw [if_neg hg]
    · rw [if_congr (outCond_iff g x y i j hij) rfl rfl]

theorem outInv_row (g : Grid) (y : Nat) (hy : y < g.length) :
    ∀ n, n ≤ rowLen g y → ∀ bm, OutInv g bm y 0 →
      OutInv g ((List.range n).foldl
        (fun bm x =>
          if cellD bm x y 0 = 0 ∧ 0 < count_neighbors bm x y then setCell bm x y 2 else bm)
        bm) y n := by
  intro n
  induction n with
  | zero => intro _ bm h; exact h
  | succ n ih =>
    intro hn bm h
    rw [List.range_succ, List.foldl_append]
    exact outInv_step (ih (by omega) bm h) hy (by omega)

theorem outInv_rowEnd {g bm : Grid} {y : Nat} (h : OutInv g bm y (rowLen g y)) :
    OutInv g bm (y + 1) 0 := by
  obtain ⟨hlen, hrow, hcell⟩ := h
  refine ⟨hlen, hrow, fun i j => ?_⟩
  rw [hcell i j]
  have hiff : ((j < y ∨ (j = y ∧ i < rowLen g y)) ∧ j < g.length ∧ i < rowLen g j) ↔
      ((j < y + 1 ∨ (j = y + 1 ∧ i < 0)) ∧ j < g.length ∧ i < rowLen g j) := by
    constructor
    · rintro ⟨hc | ⟨rfl, hc⟩, hb⟩
      · exact ⟨Or.inl (by omega), hb⟩
      · exact ⟨Or.inl (by omega), hb⟩
    · rintro ⟨hc | ⟨rfl, hc⟩, hb⟩
      · by_cases hj : j = y
        · subst hj
          exact ⟨Or.inr ⟨rfl, hb.2⟩, hb⟩
        · exact ⟨Or.inl (by omega), hb⟩
      · omega
  rw [if_congr hiff rfl rfl]

theorem outInv_pass (g : Grid) : ∀ H, H ≤ g.length →
    OutInv g ((List.range H).foldl
      (fun bm y => (List.range (rowLen bm y)).foldl
        (fun bm x =>
          if cellD bm x y 0 = 0 ∧ 0 < count_neighbors bm x y then setCell bm x y 2 else bm)
        bm)
      g) H 0 := by
  intro H
  induction H with
  | zero => intro _; exact outInv_start g
  | succ H ih =>
    intro hH
    rw [List.range_succ, List.foldl_append]
    simp only [List.foldl_cons, List.foldl_nil]
    have h1 := ih (by omega)
    rw [h1.2.1 H]
    exact outInv_rowEnd (outInv_row g H (by omega) (rowLen g H) le_rfl _ h1)

theorem outlinePass_inv (g : Grid) : OutInv g (outlinePass g) g.length 0 :=
  outInv_pass g g.length le_rfl

theorem outlinePass_length (g : Grid) : (outlinePass g).length = g.length :=
  (outlinePass_inv g).1

theorem outlinePass_rowLen (g : Grid) (j : Nat) : rowLen (outlinePass g) j = rowLen g j :=
  (outlinePass_inv g).2.1 j

/-- The in-place outline scan computes exactly the two-phase result. -/
theorem outlinePass_eq_twoPhase (g : Grid) : outlinePass g = outlineTwoPhase g := by
  obtain ⟨hlen, hrow, hcell⟩ := outlinePass_inv g
  apply grid_ext 0
  · rw [hlen]
    exact (tab_length g.length (fun y => rowLen g y) (fun x y => outlineCell g x y)).symm
  · intro j hj
    rw [hlen] at hj
    rw [hrow j]
    exact (tab_rowLen g.length (fun y => rowLen g y) (fun x y => outlineCell g x y) j hj).symm
  · intro i j hj hi
    rw [hlen] at hj
    rw [hrow j] at hi
    rw [hcell i j, if_pos ⟨Or.inl hj, hj, hi⟩]
    exact (tab_cellD g.length (fun y => rowLen g y) (fun x y => outlineCell g x y) i j hj hi 0).symm

theorem outlinePass_cellD (g : Grid) (i j : Nat) (hj : j < g.length) (hi : i < rowLen g j) :
    cellD (outlinePass g) i j 0 = outlineCell g i j := by
  rw [(outlinePass_inv g).2.2 i j, if_pos ⟨Or.inl hj, hj, hi⟩]

/-! ### Neighbor counting equals counting live in-bounds candidates -/

theorem indicator_four {α : Type} (p : α → Bool) (a b c d : α) :
    (List.filter p [a, b, c, d]).length =
      (if p a = true then 1 else 0) + (if p b = true then 1 else 0) +
        (if p c = true then 1 else 0) + (if p d = true then 1 else 0) := by
  cases h1 : p a <;> cases h2 : p b <;> cases h3 : p c <;> cases h4 : p d <;>
    simp [List.filter_cons, h1, h2, h3, h4]

theorem count_eq_adjacent (g : Grid) (x y : Nat) (hy : y < g.length) (hx : x < rowLen g y) :
    count_neighbors g x y = adjacentAlive g x y := by
  unfold count_neighbors adjacentAlive candidates
  rw [indicator_four]
  have e1 : ((inBoundsB g ((x : Int) - 1, (y : Int)) &&
        decide (cellD g ((x : Int) - 1).toNat ((y : Int)).toNat 0 = 1)) = true) ↔
      (0 < x ∧ cellD g (x - 1) y 0 = 1) := by
    simp only [inBoundsB, Bool.and_eq_true, decide_eq_true_eq]
    rw [show ((x : Int) - 1).toNat = x - 1 by omega, show ((y : Int)).toNat = y by omega]
    constructor
    · rintro ⟨⟨⟨⟨ha, -⟩, -⟩, -⟩, he⟩
      exact ⟨by omega, he⟩
    · rintro ⟨hx0, he⟩
      exact ⟨⟨⟨⟨by omega, by omega⟩, by omega⟩, by omega⟩, he⟩
  have e2 : ((inBoundsB g ((x : Int) + 1, (y : Int)) &&
        decide (cellD g ((x : Int) + 1).toNat ((y : Int)).toNat 0 = 1)) = true) ↔
      (x < rowLen g y - 1 ∧ cellD g (x + 1) y 0 = 1) := by
    simp only [inBoundsB, Bool.and_eq_true, decide_eq_true_eq]
    rw [show ((x : Int) + 1).toNat = x + 1 by omega, show ((y : Int)).toNat = y by omega]
    constructor
    · rintro ⟨⟨⟨⟨-, -⟩, -⟩, hd⟩, he⟩
      exact ⟨by omega, he⟩
    · rintro ⟨hx0, he⟩
      exact ⟨⟨⟨⟨by omega, by omega⟩, by omega⟩, by omega⟩, he⟩
  have e3 : ((inBoundsB g ((x : Int), (y : Int) - 1) &&
        decide (cellD g ((x : Int)).toNat ((y : Int) - 1).toNat 0 = 1)) = true) ↔
      (0 < y ∧ cellD g x (y - 1) 0 = 1) := by
    simp only [inBoundsB, Bool.and_eq_true, decide_eq_true_eq]
    rw [show ((x : Int)).toNat = x by omega, show ((y : Int) - 1).toNat = y - 1 by omega]
    constructor
    · rintro ⟨⟨⟨⟨-, hb⟩, -⟩, -⟩, he⟩
      exact ⟨by omega, he⟩
    · rintro ⟨hy0, he⟩
      refine ⟨⟨⟨⟨by omega, by omega⟩, by omega⟩, ?_⟩, he⟩
      by_cases hrow : x < rowLen g (y - 1)
      · omega
      · exfalso
        have hd : cellD g x (y - 1) 0 = 0 := by
          unfold cellD
          by_cases hyy : y - 1 < g.length
          · rw [List.getD_eq_getElem _ _ hyy]
            refine List.getD_eq_default _ _ ?_
            have : rowLen g (y - 1) = g[y - 1].length := by
              unfold rowLen
              rw [List.getD_eq_getElem _ _ hyy]
            omega
          · rw [List.getD_eq_default _ _ (Nat.le_of_not_lt hyy)]
            simp
        omega
  have e4 : ((inBoundsB g ((x : Int), (y : Int) + 1) &&
        decide (cellD g ((x : Int)).toNat ((y : Int) + 1).toNat 0 = 1)) = true) ↔
      (y < g.length - 1 ∧ cellD g x (y + 1) 0 = 1) := by
    simp only [inBoundsB, Bool.and_eq_true, decide_eq_true_eq]
    rw [show ((x : Int)).toNat = x by omega, show ((y : Int) + 1).toNat = y + 1 by omega]
    constructor
    · rintro ⟨⟨⟨⟨-, -⟩, hc⟩, -⟩, he⟩
      exact ⟨by omega, he⟩
    · rintro ⟨hy0, he⟩
      refine ⟨⟨⟨⟨by omega, by omega⟩, by omega⟩, ?_⟩, he⟩
      by_cases hrow : x < rowLen g (y + 1)
      · omega
      · exfalso
        have hd : cellD g x (y + 1) 0 = 0 := by
          unfold cellD
          by_cases hyy : y + 1 < g.length
          · rw [List.getD_eq_getElem _ _ hyy]
            refine List.getD_eq_default _ _ ?_
            have : rowLen g (y + 1) = g[y + 1].length := by
              unfold rowLen
              rw [List.getD_eq_getElem _ _ hyy]
            omega
          · rw [List.getD_eq_default _ _ (Nat.le_of_not_lt hyy)]
            simp
        omega
  simp only [e1, e2, e3, e4]

theorem count_le_four (g : Grid) (x y : Nat) : count_neighbors g x y ≤ 4 := by
  unfold count_neighbors
  split_ifs <;> omega

theorem adjacent_le_candidates (g : Grid) (x y : Nat) :
    adjacentAlive g x y ≤ candidateCount g x y := by
  unfold adjacentAlive candidateCount candidates
  rw [indicator_four, indicator_four]
  have h : ∀ (a b : Bool), (if (a && b) = true then 1 else 0) ≤ (if a = true then 1 else 0) := by
    intro a b
    cases a <;> cases b <;> simp
  exact Nat.add_le_add (Nat.add_le_add (Nat.add_le_add (h _ _) (h _ _)) (h _ _)) (h _ _)

theorem candidates_corner (g : Grid) (x y : Nat) (hcx : x = 0 ∨ x + 1 = rowLen g y)
    (hcy : y = 0 ∨ y + 1 = g.length) : candidateCount g x y ≤ 2 := by
  unfold candidateCount candidates
  rw [indicator_four]
  simp only [inBoundsB, Bool.and_eq_true, decide_eq_true_eq,
    show ((y : Int)).toNat = y by omega, show ((y : Int) - 1).toNat = y - 1 by omega,
    show ((y : Int) + 1).toNat = y + 1 by omega]
  split_ifs <;> omega

theorem candidates_edge (g : Grid) (x y : Nat)
    (he : x = 0 ∨ x + 1 = rowLen g y ∨ y = 0 ∨ y + 1 = g.length) :
    candidateCount g x y ≤ 3 := by
  unfold candidateCount candidates
  rw [indicator_four]
  simp only [inBoundsB, Bool.and_eq_true, decide_eq_true_eq,
    show ((y : Int)).toNat = y by omega, show ((y : Int) - 1).toNat = y - 1 by omega,
    show ((y : Int) + 1).toNat = y + 1 by omega]
  split_ifs <;> omega

/-! ### Mirroring -/

theorem mirror_length (g : Grid) : (mirrorStep g).length = g.length := by
  unfold mirrorStep
  exact List.length_map g _

theorem mirror_row (g : Grid) (y : Nat) (hy : y < g.length) :
    (mirrorStep g).getD y [] = g.getD y [] ++ (g.getD y []).reverse := by
  unfold mirrorStep
  rw [List.getD_eq_getElem _ _ (by simpa using hy), List.getElem_map,
    List.getD_eq_getElem _ _ hy]

theorem mirror_rowLen (g : Grid) (y : Nat) (hy : y < g.length) :
    rowLen (mirrorStep g) y = 2 * rowLen g y := by
  unfold rowLen
  rw [mirror_row g y hy, List.length_append, List.length_reverse]
  omega

theorem append_reverse_sym {α : Type} (r : List α) (x : Nat) (hx : x < 2 * r.length) (d : α) :
    (r ++ r.reverse).getD x d = (r ++ r.reverse).getD (2 * r.length - 1 - x) d := by
  have hlen : (r ++ r.reverse).length = 2 * r.length := by
    rw [List.length_append, List.length_reverse]
    omega
  rw [List.getD_eq_getElem _ _ (show x < (r ++ r.reverse).length by omega),
    List.getD_eq_getElem _ _ (show 2 * r.length - 1 - x < (r ++ r.reverse).length by omega)]
  by_cases hc : x < r.length
  · rw [List.getElem_append_left hc,
      List.getElem_append_right (show r.length ≤ 2 * r.length - 1 - x by omega),
      List.getElem_reverse]
    congr 1
    omega
  · rw [List.getElem_append_right (show r.length ≤ x by omega), List.getElem_reverse,
      List.getElem_append_left (show 2 * r.length - 1 - x < r.length by omega)]
    congr 1
    omega

theorem mirror_sym (g : Grid) (x y : Nat) (hy : y < g.length) (hx : x < 2 * rowLen g y) :
    cellD (mirrorStep g) x y 0 = cellD (mirrorStep g) (2 * rowLen g y - 1 - x) y 0 := by
  unfold cellD
  rw [mirror_row g y hy]
  exact append_reverse_sym (g.getD y []) x hx 0

/-! ### The growth step -/

theorem getD_append_left' {α : Type} (l l' : List α) (j : Nat) (d : α) (hj : j < l.length) :
    (l ++ l').getD j d = l.getD j d := by
  rw [List.getD_eq_getElem _ _ (by rw [List.length_append]; omega),
    List.getElem_append_left hj, List.getD_eq_getElem _ _ hj]

theorem getD_append_singleton {α : Type} (l : List α) (a d : α) :
    (l ++ [a]).getD l.length d = a := by
  rw [List.getD_eq_getElem _ _ (by rw [List.length_append]; simp),
    List.getElem_append_right (le_refl l.length)]
  simp

theorem growCols_length (g : Grid) : (growCols g).length = g.length := by
  unfold growCols
  exact List.length_map g _

theorem growCols_row (g : Grid) (j : Nat) (hj : j < g.length) :
    (growCols g).getD j [] = 0 :: g.getD j [] := by
  unfold growCols
  rw [List.getD_eq_getElem _ _ (by simpa using hj), List.getElem_map,
    List.getD_eq_getElem _ _ hj]

theorem growCols_rowLen (g : Grid) (j : Nat) (hj : j < g.length) :
    rowLen (growCols g) j = rowLen g j + 1 := by
  unfold rowLen
  rw [growCols_row g j hj, List.length_cons]

theorem grow_length (g : Grid) : (grow g).length = g.length + 2 := by
  unfold grow growBottom growTop
  rw [List.length_append, List.length_cons, growCols_length]
  simp

theorem grow_row0 (g : Grid) (hg : 0 < g.length) :
    (grow g).getD 0 [] = List.replicate (rowLen g 0 + 1) 0 := by
  unfold grow growBottom
  rw [getD_append_left' _ _ 0 [] (by unfold growTop; simp)]
  unfold growTop
  rw [show ((List.replicate (rowLen (growCols g) 0) 0 :: growCols g).getD 0 [] : List Nat) =
    List.replicate (rowLen (growCols g) 0) 0 from rfl]
  rw [growCols_rowLen g 0 hg]

theorem grow_rowMid (g : Grid) (y : Nat) (hy : y < g.length) :
    (grow g).getD (y + 1) [] = 0 :: g.getD y [] := by
  unfold grow growBottom
  rw [getD_append_left' _ _ (y + 1) [] (by unfold growTop; rw [List.length_cons, growCols_length]; omega)]
  unfold growTop
  rw [List.getD_cons_succ]
  exact growCols_row g y hy

theorem grow_rowLast (g : Grid) (hg : 0 < g.length) :
    (grow g).getD (g.length + 1) [] = List.replicate (rowLen g 0 + 1) 0 := by
  unfold grow growBottom
  have hTlen : (growTop (growCols g)).length = g.length + 1 := by
    unfold growTop
    rw [List.length_cons, growCols_length]
  have hT0 : rowLen (growTop (growCols g)) 0 = rowLen g 0 + 1 := by
    unfold growTop rowLen
    rw [List.getD_cons_zero, List.length_replicate]
    exact growCols_rowLen g 0 hg
  rw [← hTlen, getD_append_singleton, hT0]

/-! ### Rasterization -/

theorem blank_length : blankImage.length = 10 := by
  unfold blankImage
  exact List.length_replicate 10 _

theorem blank_rowLen (j : Nat) (hj : j < 10) : rowLen blankImage j = 10 := by
  unfold rowLen blankImage
  rw [List.getD_eq_getElem _ _ (by simpa using hj), List.getElem_replicate,
    List.length_replicate]

theorem blank_cell_any (i j : Nat) : cellD blankImage i j ((0, 0, 0, 0) : Pixel) = (0, 0, 0, 0) := by
  unfold cellD
  by_cases hj : j < blankImage.length
  · have hrow : blankImage.getD j [] = List.replicate 10 ((0, 0, 0, 0) : Pixel) := by
      unfold blankImage at hj ⊢
      rw [List.getD_eq_getElem _ _ hj, List.getElem_replicate]
    rw [hrow]
    by_cases hi : i < 10
    · rw [List.getD_eq_getElem _ _ (by simpa using hi), List.getElem_replicate]
    · rw [List.getD_eq_default _ _ (by simpa using Nat.le_of_not_lt hi)]
  · rw [List.getD_eq_default _ _ (Nat.le_of_not_lt hj)]
    simp

theorem create_sprite_length (bitmap : Grid) (color : Color3) (oc : Option Color3)
    (bg : Color3) (t : Bool) : (create_sprite bitmap color oc bg t).length = 10 := by
  simp only [create_sprite, putpixels]
  rw [writeGrid_length, blank_length]

theorem create_sprite_rowLen (bitmap : Grid) (color : Color3) (oc : Option Color3)
    (bg : Color3) (t : Bool) (j : Nat) (hj : j < 10) :
    rowLen (create_sprite bitmap color oc bg t) j = 10 := by
  simp only [create_sprite, putpixels]
  rw [writeGrid_rowLen, blank_rowLen j hj]

theorem create_sprite_cell (bitmap : Grid) (color : Color3) (oc : Option Color3)
    (bg : Color3) (t : Bool) (x y : Nat) (hx : x < 10) (hy : y < 10)
    (hyb : y < (mirrorStep bitmap).length) (hxb : x < rowLen (mirrorStep bitmap) y) :
    cellD (create_sprite bitmap color oc bg t) x y ((0, 0, 0, 0) : Pixel) =
      color_map color (oc.getD (deriveOutline color)) bg t (cellD (mirrorStep bitmap) x y 0) := by
  simp only [create_sprite, putpixels]
  rw [writeGrid_cellD,
    if_pos ⟨hyb, hxb, by rw [blank_length]; exact hy, by rw [blank_rowLen y hy]; exact hx⟩]

theorem create_sprite_cell_unwritten (bitmap : Grid) (color : Color3) (oc : Option Color3)
    (bg : Color3) (t : Bool) (x y : Nat)
    (h : ¬(y < (mirrorStep bitmap).length ∧ x < rowLen (mirrorStep bitmap) y)) :
    cellD (create_sprite bitmap color oc bg t) x y ((0, 0, 0, 0) : Pixel) = (0, 0, 0, 0) := by
  simp only [create_sprite, putpixels]
  rw [writeGrid_cellD, if_neg (fun hh => h ⟨hh.1, hh.2.1⟩), blank_cell_any]

/-! ### All-background grids -/

theorem cellD_all_zero (g : Grid) (h : ∀ r ∈ g, ∀ c ∈ r, c = 0) (x y : Nat) :
    cellD g x y 0 = 0 := by
  unfold cellD
  by_cases hy : y < g.length
  · rw [List.getD_eq_getElem _ _ hy]
    by_cases hx : x < g[y].length
    · rw [List.getD_eq_getElem _ _ hx]
      exact h _ (List.getElem_mem _) _ (List.getElem_mem _)
    · rw [List.getD_eq_default _ _ (Nat.le_of_not_lt hx)]
  · rw [List.getD_eq_default _ _ (Nat.le_of_not_lt hy)]
    simp

theorem mirror_all_zero (g : Grid) (h : ∀ r ∈ g, ∀ c ∈ r, c = 0) :
    ∀ r ∈ mirrorStep g, ∀ c ∈ r, c = 0 := by
  intro r hr c hc
  unfold mirrorStep at hr
  obtain ⟨line, hl, rfl⟩ := List.mem_map.mp hr
  rcases List.mem_append.mp hc with hc | hc
  · exact h line hl c hc
  · exact h line hl c (List.mem_reverse.mp hc)

/-! ### Shape of the generated bitmap for an 8×4 seed -/

theorem seed_rowLen (seed : Grid) (h4 : ∀ r ∈ seed, r.length = 4) (j : Nat)
    (hj : j < seed.length) : rowLen seed j = 4 := by
  unfold rowLen
  rw [List.getD_eq_getElem _ _ hj]
  exact h4 _ (List.getElem_mem _)

theorem generate_bitmap_length (seed : Grid) :
    (generate_bitmap seed).length = seed.length + 2 := by
  unfold generate_bitmap
  rw [outlinePass_length, grow_length, evolve_length, evolve_length]

theorem generate_bitmap_rowLen (seed : Grid) (h8 : seed.length = 8)
    (h4 : ∀ r ∈ seed, r.length = 4) (j : Nat) (hj : j < 10) :
    rowLen (generate_bitmap seed) j = 5 := by
  have hrow : ∀ j', j' < 8 → rowLen (evolve (evolve seed)) j' = 4 := by
    intro j' hj'
    rw [evolve_rowLen, evolve_rowLen]
    exact seed_rowLen seed h4 j' (by omega)
  have hlen2 : (evolve (evolve seed)).length = 8 := by
    rw [evolve_length, evolve_length, h8]
  unfold generate_bitmap
  rw [outlinePass_rowLen]
  unfold rowLen
  rcases j with _ | k
  · rw [grow_row0 _ (by omega), List.length_replicate, hrow 0 (by omega)]
  · by_cases hk : k < 8
    · rw [grow_rowMid _ k (by omega), List.length_cons]
      have hr := hrow k hk
      unfold rowLen at hr
      omega
    · have hk8 : k = 8 := by omega
      subst hk8
      rw [show (8 : Nat) + 1 = (evolve (evolve seed)).length + 1 by omega,
        grow_rowLast _ (by omega), List.length_replicate, hrow 0 (by omega)]

/-! ### Claims -/

/-- Claim C1: for every rectangular binary grid, `evolve` keeps the
dimensions and sets each output cell to 1 exactly when the input cell
was background with at most one live neighbor or alive with two or
three live neighbors, all counts taken on the input grid. -/
theorem claim1_evolve_rule (g : Grid) (x y : Nat)
    (hbin : ∀ r ∈ g, ∀ c ∈ r, c = 0 ∨ c = 1)
    (hrect : ∀ r ∈ g, r.length = rowLen g 0)
    (hy : y < g.length) (hx : x < rowLen g y) :
    (evolve g).length = g.length ∧ rowLen (evolve g) y = rowLen g y ∧
      cellD (evolve g) x y 0 =
        (if (cellD g x y 0 = 0 ∧ count_neighbors g x y ≤ 1) ∨
            (cellD g x y 0 = 1 ∧ (count_neighbors g x y = 2 ∨ count_neighbors g x y = 3))
        then 1 else 0) :=
  ⟨evolve_length g, evolve_rowLen g y, by rw [evolve_cellD g x y hy hx]; rfl⟩

theorem claim1_witness :
    (evolve sampleA).length = sampleA.length ∧ rowLen (evolve sampleA) 0 = rowLen sampleA 0 ∧
      cellD (evolve sampleA) 1 0 0 =
        (if (cellD sampleA 1 0 0 = 0 ∧ count_neighbors sampleA 1 0 ≤ 1) ∨
            (cellD sampleA 1 0 0 = 1 ∧
              (count_neighbors sampleA 1 0 = 2 ∨ count_neighbors sampleA 1 0 = 3))
        then 1 else 0) :=
  claim1_evolve_rule sampleA 1 0 (by decide) (by decide) (by decide) (by decide)

/-- Claim C2: at an in-bounds coordinate, `count_neighbors` equals the
number of in-bounds orthogonally adjacent cells with code 1, is at most
4, never counts off-grid positions, and boundary cells have at most 2
(corner) or 3 (edge) in-bounds candidate neighbors. -/
theorem claim2_count_spec (g : Grid) (x y : Nat) (hy : y < g.length) (hx : x < rowLen g y) :
    count_neighbors g x y = adjacentAlive g x y ∧
      count_neighbors g x y ≤ 4 ∧
      adjacentAlive g x y ≤ candidateCount g x y ∧
      ((x = 0 ∨ x + 1 = rowLen g y) ∧ (y = 0 ∨ y + 1 = g.length) →
        candidateCount g x y ≤ 2) ∧
      ((x = 0 ∨ x + 1 = rowLen g y ∨ y = 0 ∨ y + 1 = g.length) →
        candidateCount g x y ≤ 3) :=
  ⟨count_eq_adjacent g x y hy hx, count_le_four g x y, adjacent_le_candidates g x y,
    fun h => candidates_corner g x y h.1 h.2, fun h => candidates_edge g x y h⟩

theorem claim2_witness :
    count_neighbors sampleA 1 0 = adjacentAlive sampleA 1 0 ∧
      count_neighbors sampleA 1 0 ≤ 4 ∧
      adjacentAlive sampleA 1 0 ≤ candidateCount sampleA 1 0 ∧
      candidateCount sampleA 1 0 ≤ 2 ∧ candidateCount sampleA 1 0 ≤ 3 := by
  obtain ⟨h1, h2, h3, h4, h5⟩ := claim2_count_spec sampleA 1 0 (by decide) (by decide)
  exact ⟨h1, h2, h3, h4 (by decide), h5 (by decide)⟩

/-- Claim C3: the outline pass leaves alive cells unchanged, recodes a
background cell to 2 exactly when it has a live orthogonal neighbor in
the grown grid, and leaves isolated background cells at 0. -/
theorem claim3_outline_marking (g : Grid) (x y : Nat) (hy : y < g.length)
    (hx : x < rowLen g y) :
    (cellD g x y 0 = 1 → cellD (outlinePass g) x y 0 = 1) ∧
      (cellD g x y 0 = 0 →
        (cellD (outlinePass g) x y 0 = 2 ↔ 0 < adjacentAlive g x y) ∧
          (adjacentAlive g x y = 0 → cellD (outlinePass g) x y 0 = 0)) := by
  have hcell := outlinePass_cellD g x y hy hx
  have hadj := count_eq_adjacent g x y hy hx
  constructor
  · intro h1
    rw [hcell]
    unfold outlineCell
    rw [if_neg (by rintro ⟨h0, -⟩; omega)]
    exact h1
  · intro h0
    constructor
    · rw [hcell]
      unfold outlineCell
      by_cases hc : 0 < count_neighbors g x y
      · rw [if_pos ⟨h0, hc⟩]
        constructor
        · intro _; omega
        · intro _; rfl
      · rw [if_neg (fun hh => hc hh.2), h0]
        constructor
        · intro h2; omega
        · intro h2; omega
    · intro hz
      rw [hcell]
      unfold outlineCell
      rw [if_neg (by intro hh; omega)]
      exact h0

theorem claim3_witness :
    cellD (outlinePass sampleA) 0 0 0 = 2 ↔ 0 < adjacentAlive sampleA 0 0 :=
  ((claim3_outline_marking sampleA 0 0 (by decide) (by decide)).2 (by decide)).1

/-- Claim C4: mirroring keeps the height, replaces each row by itself
followed by its own reverse (so no rows are reordered), doubles the
width to `2 * W`, and the result is left-right symmetric. -/
theorem claim4_mirror (g : Grid) (W x y : Nat) (hrect : ∀ r ∈ g, r.length = W)
    (hy : y < g.length) (hx : x < 2 * W) :
    (mirrorStep g).length = g.length ∧
      (mirrorStep g).getD y [] = g.getD y [] ++ (g.getD y []).reverse ∧
      rowLen (mirrorStep g) y = 2 * W ∧
      cellD (mirrorStep g) x y 0 = cellD (mirrorStep g) (2 * W - 1 - x) y 0 := by
  have hW : rowLen g y = W := by
    unfold rowLen
    rw [List.getD_eq_getElem _ _ hy]
    exact hrect _ (List.getElem_mem _)
  refine ⟨mirror_length g, mirror_row g y hy, ?_, ?_⟩
  · rw [mirror_rowLen g y hy, hW]
  · rw [← hW] at hx ⊢
    exact mirror_sym g x y hy hx

theorem claim4_witness :
    (mirrorStep sampleA).length = sampleA.length ∧
      (mirrorStep sampleA).getD 1 [] = sampleA.getD 1 [] ++ (sampleA.getD 1 []).reverse ∧
      rowLen (mirrorStep sampleA) 1 = 2 * 2 ∧
      cellD (mirrorStep sampleA) 0 1 0 = cellD (mirrorStep sampleA) (2 * 2 - 1 - 0) 1 0 :=
  claim4_mirror sampleA 2 0 1 (by decide) (by decide) (by decide)

/-- Claim C5 fails as stated: on a concrete run of the pipeline the
returned pixel buffer is 10×10, not 10×20 — mirroring doubles the
post-outline width 5 to 10. -/
theorem claim5_counterexample :
    rowLen (create_sprite (generate_bitmap zeroSeed) (0, 255, 0) none (255, 255, 255) false) 0 = 10 ∧
      rowLen (create_sprite (generate_bitmap zeroSeed) (0, 255, 0) none (255, 255, 255) false) 0 ≠ 20 := by
  decide

/-- Claim C5 (amended): for every run of the full pipeline on an 8×4
seed, the returned pixel buffer has fixed native size 10×10 (mirroring
doubles the post-outline width 5 to 10), and pixel `(x, y)` holds the
color the color map assigns to `grid[y][x]` of the mirrored bitmap. -/
theorem claim5_native_size (seed : Grid) (color : Color3) (oc : Option Color3) (bg : Color3)
    (t : Bool) (x y : Nat) (h8 : seed.length = 8) (h4 : ∀ r ∈ seed, r.length = 4)
    (hx : x < 10) (hy : y < 10) :
    (create_sprite (generate_bitmap seed) color oc bg t).length = 10 ∧
      rowLen (create_sprite (generate_bitmap seed) color oc bg t) y = 10 ∧
      cellD (create_sprite (generate_bitmap seed) color oc bg t) x y ((0, 0, 0, 0) : Pixel) =
        color_map color (oc.getD (deriveOutline color)) bg t
          (cellD (mirrorStep (generate_bitmap seed)) x y 0) := by
  have hyb : y < (mirrorStep (generate_bitmap seed)).length := by
    rw [mirror_length, generate_bitmap_length, h8]
    omega
  have hxb : x < rowLen (mirrorStep (generate_bitmap seed)) y := by
    rw [mirror_rowLen _ _ (by rw [generate_bitmap_length, h8]; omega),
      generate_bitmap_rowLen seed h8 h4 y hy]
    omega
  exact ⟨create_sprite_length _ _ _ _ _, create_sprite_rowLen _ _ _ _ _ y hy,
    create_sprite_cell _ _ _ _ _ x y hx hy hyb hxb⟩

theorem claim5_witness :
    (create_sprite (generate_bitmap zeroSeed) (1, 2, 3) none (4, 5, 6) false).length = 10 ∧
      rowLen (create_sprite (generate_bitmap zeroSeed) (1, 2, 3) none (4, 5, 6) false) 0 = 10 ∧
      cellD (create_sprite (generate_bitmap zeroSeed) (1, 2, 3) none (4, 5, 6) false) 0 0
          ((0, 0, 0, 0) : Pixel) =
        color_map (1, 2, 3) ((none : Option Color3).getD (deriveOutline (1, 2, 3))) (4, 5, 6) false
          (cellD (mirrorStep (generate_bitmap zeroSeed)) 0 0 0) :=
  claim5_native_size zeroSeed (1, 2, 3) none (4, 5, 6) false 0 0 (by decide) (by decide)
    (by decide) (by decide)

/-- Claim C6 fails as stated: the grown grid has rows of width 5, not 6
— one background column is inserted at the left of the 4-wide rows. -/
theorem claim6_counterexample :
    rowLen (grow (evolve (evolve zeroSeed))) 0 = 5 ∧
      rowLen (grow (evolve (evolve zeroSeed))) 0 ≠ 6 := by
  decide

/-- Claim C6 (amended): growing the evolved 8×4 grid produces a 10×5
grid: one background column at the left edge of every row, one full
background row on top, one at the bottom, and nothing on the right. -/
theorem claim6_grow_spec (g : Grid) (y : Nat) (h8 : g.length = 8)
    (h4 : ∀ r ∈ g, r.length = 4) (hy : y < 8) :
    (grow g).length = 10 ∧ rowLen (grow g) 0 = 5 ∧ rowLen (grow g) (y + 1) = 5 ∧
      rowLen (grow g) 9 = 5 ∧
      (grow g).getD 0 [] = List.replicate 5 0 ∧
      (grow g).getD 9 [] = List.replicate 5 0 ∧
      (grow g).getD (y + 1) [] = 0 :: g.getD y [] := by
  have hr0 : rowLen g 0 = 4 := seed_rowLen g h4 0 (by omega)
  have hry : rowLen g y = 4 := seed_rowLen g h4 y (by omega)
  have h9 : (9 : Nat) = g.length + 1 := by omega
  refine ⟨by rw [grow_length, h8], ?_, ?_, ?_, ?_, ?_, ?_⟩
  · unfold rowLen
    rw [grow_row0 g (by omega), List.length_replicate, hr0]
  · unfold rowLen
    rw [grow_rowMid g y (by omega), List.length_cons]
    unfold rowLen at hry
    omega
  · unfold rowLen
    rw [h9, grow_rowLast g (by omega), List.length_replicate, hr0]
  · rw [grow_row0 g (by omega), hr0]
  · rw [h9, grow_rowLast g (by omega), hr0]
  · exact grow_rowMid g y (by omega)

theorem claim6_witness :
    (grow (evolve (evolve zeroSeed))).length = 10 ∧
      rowLen (grow (evolve (evolve zeroSeed))) 0 = 5 ∧
      rowLen (grow (evolve (evolve zeroSeed))) (0 + 1) = 5 ∧
      rowLen (grow (evolve (evolve zeroSeed))) 9 = 5 ∧
      (grow (evolve (evolve zeroSeed))).getD 0 [] = List.replicate 5 0 ∧
      (grow (evolve (evolve zeroSeed))).getD 9 [] = List.replicate 5 0 ∧
      (grow (evolve (evolve zeroSeed))).getD (0 + 1) [] =
        0 :: (evolve (evolve zeroSeed)).getD 0 [] :=
  claim6_grow_spec (evolve (evolve zeroSeed)) 0 (by decide) (by decide) (by decide)

/-- Claim C7: with the transparency flag set, every background cell is
rasterized to an alpha-0 pixel whatever background color is supplied;
in particular for an all-background bitmap every pixel of the 10×10
buffer has alpha 0. -/
theorem claim7_transparency (bitmap : Grid) (color : Color3) (oc : Option Color3)
    (bg : Color3) (x y : Nat) (hx : x < 10) (hy : y < 10)
    (hcell : cellD (mirrorStep bitmap) x y 0 = 0 ∨ ∀ r ∈ bitmap, ∀ c ∈ r, c = 0) :
    (cellD (create_sprite bitmap color oc bg true) x y ((0, 0, 0, 0) : Pixel)).2.2.2 = 0 := by
  have hc0 : cellD (mirrorStep bitmap) x y 0 = 0 := by
    rcases hcell with h | h
    · exact h
    · exact cellD_all_zero (mirrorStep bitmap) (mirror_all_zero bitmap h) x y
  by_cases hb : y < (mirrorStep bitmap).length ∧ x < rowLen (mirrorStep bitmap) y
  · rw [create_sprite_cell bitmap color oc bg true x y hx hy hb.1 hb.2, hc0]
    simp [color_map]
  · rw [create_sprite_cell_unwritten bitmap color oc bg true x y hb]

theorem claim7_witness :
    (cellD (create_sprite sampleZ (9, 9, 9) none (7, 7, 7) true) 1 0
      ((0, 0, 0, 0) : Pixel)).2.2.2 = 0 :=
  claim7_transparency sampleZ (9, 9, 9) none (7, 7, 7) 1 0 (by decide) (by decide)
    (Or.inl (by decide))

/-- Claim C8: when no outline color is supplied, outline cells are
rasterized with the color obtained from the main color by the
per-channel rule `max 0 (channel - 90)`, computed before the pixel
loop; for main color `(10, 20, 30)` the derived outline color is
`(0, 0, 0)`. -/
theorem claim8_outline_derivation (bitmap : Grid) (color bg : Color3) (t : Bool) (x y : Nat)
    (hx : x < 10) (hy : y < 10) (hcell : cellD (mirrorStep bitmap) x y 0 = 2) :
    cellD (create_sprite bitmap color none bg t) x y ((0, 0, 0, 0) : Pixel) =
        rgba (max 0 (color.1 - 90), max 0 (color.2.1 - 90), max 0 (color.2.2 - 90)) ∧
      deriveOutline (10, 20, 30) = (0, 0, 0) := by
  have hyb : y < (mirrorStep bitmap).length := by
    by_contra hc
    have h0 : cellD (mirrorStep bitmap) x y 0 = 0 := by
      unfold cellD
      rw [List.getD_eq_default _ _ (Nat.le_of_not_lt hc)]
      simp
    omega
  have hxb : x < rowLen (mirrorStep bitmap) y := by
    by_contra hc
    have h0 : cellD (mirrorStep bitmap) x y 0 = 0 := by
      unfold cellD
      exact List.getD_eq_default _ _ (by unfold rowLen at hc; omega)
    omega
  constructor
  · rw [create_sprite_cell bitmap color none bg t x y hx hy hyb hxb, hcell]
    simp [color_map, deriveOutline, OUTLINE_DARKEN_RATE]
  · decide

theorem claim8_witness :
    cellD (create_sprite (generate_bitmap zeroSeed) (100, 100, 5) none (7, 7, 7) false) 1 0
        ((0, 0, 0, 0) : Pixel) =
      rgba (max 0 ((100 : Int) - 90), max 0 ((100 : Int) - 90), max 0 ((5 : Int) - 90)) ∧
      deriveOutline (10, 20, 30) = (0, 0, 0) :=
  claim8_outline_derivation (generate_bitmap zeroSeed) (100, 100, 5) (7, 7, 7) false 1 0
    (by decide) (by decide) (by decide)

/-- Claim C9: `evolve`, embedded as the source's copy-then-write loop,
equals the pure pointwise function `evolvePure` of the input grid: the
returned grid is a fresh grid, every neighbor count is taken on the
input, the input is not mutated, and two calls on the same input give
identical outputs. -/
theorem claim9_evolve_pure (g : Grid) : evolve g = evolvePure g :=
  evolve_eq_pure g

/-- Claim C10: the in-place row-major outline scan equals the two-phase
version that computes every recoding from an immutable snapshot and
then applies them all: writes of code 2 never change which cells hold
code 1, so later neighbor counts are unaffected. -/
theorem claim10_outline_refinement (g : Grid) : outlinePass g = outlineTwoPhase g :=
  outlinePass_eq_twoPhase g
